import Mathlib

set_option linter.all false

/-!
Shallow embedding of the product-identity resolution pipeline of the
smart-home repository: the Excel image mapping chain
(enhanced_excel_image_mapper.py), the slide-deck pdid label extractor
(pdid_extractor.py), the device aggregator (device_statistics.py) and the
image renamer (image_renamer.py).

Python strings are modelled as `List Char`; Python dicts as
insertion-ordered association lists with key overwrite; the numeric
completeness rate as an exact rational (Python computes it in binary
floating point and rounds — the rounding step is modelled exactly, which
is faithful on all non-tie inputs appearing below).
-/

/-- The ASCII whitespace characters recognised by Python's `str.strip()` and
by the regex class used in the label patterns (on the inputs exercised here). -/
def isPySpace (c : Char) : Bool :=
  c = ' ' || c = '\t' || c = '\n' || c = '\x0d' || c = '\x0b' || c = '\x0c'

/-- Python `str.strip()`: drop whitespace from both ends. -/
def pyStrip (l : List Char) : List Char :=
  ((l.dropWhile isPySpace).reverse.dropWhile isPySpace).reverse

/-- Python dict lookup on an insertion-ordered association list. -/
def dictGet {α β : Type} [DecidableEq α] : List (α × β) → α → Option β
  | [], _ => none
  | p :: t, k => if p.1 = k then some p.2 else dictGet t k

/-- Python dict assignment `d[k] = v`: overwrite in place when the key exists,
append otherwise (insertion order is preserved, as in CPython). -/
def dictInsert {α β : Type} [DecidableEq α] (k : α) (v : β) (l : List (α × β)) :
    List (α × β) :=
  if (dictGet l k).isSome then l.map (fun p => if p.1 = k then (k, v) else p)
  else l ++ [(k, v)]

/-- Python `defaultdict(list)[k].append(v)`. -/
def multiAppend {α β : Type} [DecidableEq α] (k : α) (v : β)
    (l : List (α × List β)) : List (α × List β) :=
  if (dictGet l k).isSome then
    l.map (fun p => if p.1 = k then (p.1, p.2 ++ [v]) else p)
  else l ++ [(k, [v])]

/-- Python `str(n)` for a natural number. -/
def natToChars (n : Nat) : List Char :=
  (Nat.repr n).data

/-- Python's substring test `needle in hay`. -/
def isSub (needle : List Char) : List Char → Bool
  | [] => needle.isPrefixOf []
  | c :: t => needle.isPrefixOf (c :: t) || isSub needle t

/-! ## device_statistics.py -/

/-- One catalog device record as consumed by `count_devices_by_pdid`
(the fields read from `device_mapping[pdid_key]`). -/
structure DeviceInfo where
  brand : List Char
  device_name : List Char
  specification : List Char
  deriving DecidableEq, Repr

/-- `DeviceStatistics._extract_device_category`: the ordered keyword test on
the device display name (开关/插座/传感器/网关/面板, catch-all 其他设备). -/
def extract_device_category (device_name : List Char) : List Char :=
  if isSub ("开关".data) device_name then ("智能开关".data)
  else if isSub ("插座".data) device_name then ("智能插座".data)
  else if isSub ("传感器".data) device_name then ("传感器".data)
  else if isSub ("网关".data) device_name then ("网关".data)
  else if isSub ("面板".data) device_name then ("控制面板".data)
  else ("其他设备".data)

/-- Modelled from the spec: the ordered keyword list of §4.7, first substring
match wins, in the exact order switch (开关), socket (插座), sensor (传感器),
gateway (网关), panel (面板). -/
def categoryKeywordTable : List (List Char × List Char) :=
  [(("开关".data), ("智能开关".data)),
   (("插座".data), ("智能插座".data)),
   (("传感器".data), ("传感器".data)),
   (("网关".data), ("网关".data)),
   (("面板".data), ("控制面板".data))]

/-- Modelled from the spec (§4.7): derive the category as the first keyword of
the ordered list that occurs as substring of the display name, with the
catch-all "other" (其他设备) category when none matches. -/
def firstMatchCategory (device_name : List Char) : List Char :=
  match categoryKeywordTable.find? (fun p => isSub p.1 device_name) with
  | some p => p.2
  | none => ("其他设备".data)

/-- One record appended under a brand bucket by `count_devices_by_pdid`. -/
structure BrandDetail where
  pdid : Nat
  device_name : List Char
  specification : List Char
  count : Nat
  deriving DecidableEq, Repr

/-- One record appended under a category bucket by `count_devices_by_pdid`. -/
structure CategoryDetail where
  pdid : Nat
  device_name : List Char
  brand : List Char
  specification : List Char
  count : Nat
  deriving DecidableEq, Repr

/-- The dictionary returned by `DeviceStatistics.count_devices_by_pdid`. -/
structure StatisticsResult where
  total_devices : Nat
  unique_pdids : Nat
  brands : Nat
  categories : Nat
  device_counts : List (Nat × Nat)
  brand_stats : List (List Char × List BrandDetail)
  category_stats : List (List Char × List CategoryDetail)
  deriving DecidableEq, Repr

/-- The accumulator state of the loop in `count_devices_by_pdid`
(the instance fields `device_counts`, `total_devices`, `brand_stats`,
`category_stats`, freshly cleared on entry). -/
structure StatsState where
  device_counts : List (Nat × Nat)
  total_devices : Nat
  brand_stats : List (List Char × List BrandDetail)
  category_stats : List (List Char × List CategoryDetail)
  deriving DecidableEq, Repr

/-- The body of the loop `for pdid, count in pdid_counts.items()` in
`count_devices_by_pdid`: a pdid with no catalog match under `str(pdid)`
leaves the state unchanged. -/
def countDevicesStep (device_mapping : List (List Char × DeviceInfo))
    (s : StatsState) (p : Nat × Nat) : StatsState :=
  match dictGet device_mapping (natToChars p.1) with
  | none => s
  | some di =>
    { device_counts := dictInsert p.1 p.2 s.device_counts
      total_devices := s.total_devices + p.2
      brand_stats := multiAppend di.brand
        { pdid := p.1, device_name := di.device_name,
          specification := di.specification, count := p.2 } s.brand_stats
      category_stats := multiAppend (extract_device_category di.device_name)
        { pdid := p.1, device_name := di.device_name, brand := di.brand,
          specification := di.specification, count := p.2 } s.category_stats }

/-- `DeviceStatistics.count_devices_by_pdid`: fold the loop body over the
pdid occurrence counts, then package the result dictionary. -/
def count_devices_by_pdid (pdid_counts : List (Nat × Nat))
    (device_mapping : List (List Char × DeviceInfo)) : StatisticsResult :=
  let s := pdid_counts.foldl (countDevicesStep device_mapping)
    { device_counts := [], total_devices := 0, brand_stats := [],
      category_stats := [] }
  { total_devices := s.total_devices
    unique_pdids := s.device_counts.length
    brands := s.brand_stats.length
    categories := s.category_stats.length
    device_counts := s.device_counts
    brand_stats := s.brand_stats
    category_stats := s.category_stats }

/-! ## enhanced_excel_image_mapper.py -/

/-- One row record produced by `extract_dispimg_formulas` (keyed by row
number): the parsed DISPIMG information for a catalog row whose image cell
contained the marker and yielded an image identifier. -/
structure DispimgInfo where
  pdid : List Char
  device_name : List Char
  dispimg_formula : List Char
  image_id : List Char
  deriving DecidableEq, Repr

/-- One registry record of `parse_cellimages_mapping` (keyed by image
identifier): the fields `build_complete_mapping_chain` reads back. -/
structure CellimagesInfo where
  r_id : List Char
  actual_file : List Char
  file_path : List Char
  description : List Char
  deriving DecidableEq, Repr

/-- One value of the `complete_mappings` dictionary built by
`build_complete_mapping_chain`. -/
structure MappingEntry where
  pdid : List Char
  device_name : List Char
  row_number : Nat
  dispimg_formula : List Char
  image_id : List Char
  r_id : List Char
  actual_file : List Char
  file_path : List Char
  description : List Char
  cell_reference : List Char
  validation_status : List Char
  deriving DecidableEq, Repr

/-- The registry lookup of `build_complete_mapping_chain`: try the parsed
identifier verbatim first, then with the fixed `ID_` prefix added; return the
matched key (the possibly re-prefixed identifier) together with the record. -/
def matchRegistry (image_id : List Char)
    (cellimages_mappings : List (List Char × CellimagesInfo)) :
    Option (List Char × CellimagesInfo) :=
  match dictGet cellimages_mappings image_id with
  | some ci => some (image_id, ci)
  | none =>
    match dictGet cellimages_mappings (("ID_".data) ++ image_id) with
    | some ci => some ((("ID_".data) ++ image_id), ci)
    | none => none

/-- The `mapping_key` of `build_complete_mapping_chain`: `pdid_<pdid>` when
the row has a product id, `row_<row>` otherwise. -/
def mappingKey (row_num : Nat) (info : DispimgInfo) : List Char :=
  if info.pdid ≠ [] then ("pdid_".data) ++ info.pdid
  else ("row_".data) ++ natToChars row_num

/-- The entry `build_complete_mapping_chain` stores for a matched row
(`matched_id` is the registry key that matched, possibly `ID_`-prefixed). -/
def mkMappingEntry (row_num : Nat) (info : DispimgInfo)
    (matched_id : List Char) (ci : CellimagesInfo) : MappingEntry :=
  { pdid := info.pdid
    device_name := info.device_name
    row_number := row_num
    dispimg_formula := info.dispimg_formula
    image_id := matched_id
    r_id := ci.r_id
    actual_file := ci.actual_file
    file_path := ci.file_path
    description := ci.description
    cell_reference := 'L' :: natToChars row_num
    validation_status :=
      if info.pdid ≠ [] ∧ ci.actual_file ≠ [] then ("complete".data)
      else ("incomplete".data) }

/-- The body of the loop over `dispimg_mappings.items()` in
`build_complete_mapping_chain`: an identifier with no registry match (in
either form) leaves the output dictionary unchanged. -/
def buildChainStep (cellimages_mappings : List (List Char × CellimagesInfo))
    (acc : List (List Char × MappingEntry)) (p : Nat × DispimgInfo) :
    List (List Char × MappingEntry) :=
  match matchRegistry p.2.image_id cellimages_mappings with
  | some mc => dictInsert (mappingKey p.1 p.2) (mkMappingEntry p.1 p.2 mc.1 mc.2) acc
  | none => acc

/-- `EnhancedExcelImageMapper.build_complete_mapping_chain`. -/
def build_complete_mapping_chain (dispimg_mappings : List (Nat × DispimgInfo))
    (cellimages_mappings : List (List Char × CellimagesInfo)) :
    List (List Char × MappingEntry) :=
  dispimg_mappings.foldl (buildChainStep cellimages_mappings) []

/-- The per-entry classification of `validate_mapping_chain`: the `pdid`
check first, then the `actual_file` check, else complete. -/
def classifyStatus (e : MappingEntry) : List Char :=
  if e.pdid = [] then ("missing_pdid".data)
  else if e.actual_file = [] then ("missing_image".data)
  else ("complete".data)

/-- Round-half-to-even on an exact rational, as Python's builtin `round`. -/
def roundHalfEven (q : ℚ) : ℤ :=
  let f := Rat.floor q
  let r := q - (f : ℚ)
  if r < 1 / 2 then f
  else if 1 / 2 < r then f + 1
  else if f % 2 = 0 then f else f + 1

/-- Python `round(q, 2)`, modelled exactly on rationals. -/
def roundTo2 (q : ℚ) : ℚ :=
  (roundHalfEven (q * 100) : ℚ) / 100

/-- The `validation_summary` dictionary of `validate_mapping_chain`. -/
structure ValidationSummary where
  total_mappings : Nat
  complete_mappings : Nat
  missing_pdid : Nat
  missing_images : Nat
  completeness_rate : ℚ
  deriving DecidableEq, Repr

/-- `EnhancedExcelImageMapper.validate_mapping_chain`: classify every entry
(rewriting its `validation_status` in place — the first component is the
mapping dictionary as it stands after the call) and produce the summary.
The three counters are incremented by the same mutually exclusive branch
conditions that assign the status, so they are the branch counts. -/
def validate_mapping_chain (mapping_data : List (List Char × MappingEntry)) :
    List (List Char × MappingEntry) × ValidationSummary :=
  let updated := mapping_data.map
    (fun p => (p.1, { p.2 with validation_status := classifyStatus p.2 }))
  let total := mapping_data.length
  let mpd := mapping_data.countP (fun p => p.2.pdid = [])
  let mim := mapping_data.countP
    (fun p => p.2.pdid ≠ [] ∧ p.2.actual_file = [])
  let comp := mapping_data.countP
    (fun p => p.2.pdid ≠ [] ∧ p.2.actual_file ≠ [])
  (updated,
   { total_mappings := total
     complete_mappings := comp
     missing_pdid := mpd
     missing_images := mim
     completeness_rate :=
       if 0 < total then roundTo2 ((comp : ℚ) / (total : ℚ) * 100) else 0 })

/-! ## pdid_extractor.py -/

/-- ASCII lower-casing, the effect of `re.IGNORECASE` on the literal letters
of the label patterns. -/
def toLowerAscii (c : Char) : Char :=
  if 'A' ≤ c && c ≤ 'Z' then Char.ofNat (c.toNat + 32) else c

/-- Match a literal pattern fragment case-insensitively at the head of the
text, returning the remaining text on success. -/
def matchLitCI : List Char → List Char → Option (List Char)
  | [], l => some l
  | _ :: _, [] => none
  | a :: as, c :: cs =>
    if toLowerAscii c = toLowerAscii a then matchLitCI as cs else none

/-- Numeric value of a run of decimal digits (Python `int(...)`). -/
def digitsToNat (ds : List Char) : Nat :=
  ds.foldl (fun n c => n * 10 + (c.toNat - 48)) 0

/-- One attempt of the strict pattern of `_match_pdid_format`
(`pdid:\s*(\d+)`, `re.IGNORECASE`) at the head of the text: the literal
`pdid:`, optional whitespace, then one or more digits (captured greedily). -/
def matchStrictAt (l : List Char) : Option Nat :=
  match matchLitCI ("pdid:".data) l with
  | none => none
  | some rest =>
    let ds := (rest.dropWhile isPySpace).takeWhile Char.isDigit
    if ds = [] then none else some (digitsToNat ds)

/-- `re.search` with the strict pattern: try every position, leftmost match
wins. -/
def searchStrict : List Char → Option Nat
  | [] => none
  | c :: t =>
    match matchStrictAt (c :: t) with
    | some v => some v
    | none => searchStrict t

/-- One attempt of the loose pattern of `_match_pdid_format`
(`pdid\s*:\s*(\d+)`, `re.IGNORECASE`) at the head of the text: whitespace is
also allowed between `pdid` and the colon. -/
def matchLooseAt (l : List Char) : Option Nat :=
  match matchLitCI ("pdid".data) l with
  | none => none
  | some rest =>
    match rest.dropWhile isPySpace with
    | ':' :: r3 =>
      let ds := (r3.dropWhile isPySpace).takeWhile Char.isDigit
      if ds = [] then none else some (digitsToNat ds)
    | _ => none

/-- `re.search` with the loose pattern. -/
def searchLoose : List Char → Option Nat
  | [] => none
  | c :: t =>
    match matchLooseAt (c :: t) with
    | some v => some v
    | none => searchLoose t

/-- `PDIDExtractor._match_pdid_format`: the strict pattern first; the loose
pattern is consulted only when the strict one found nothing; each successful
search contributes exactly one value. -/
def matchPdidFormat (text : List Char) : List Nat :=
  match searchStrict text with
  | some v => [v]
  | none =>
    match searchLoose text with
    | some v => [v]
    | none => []

/-- The `left/top/width/height` geometry recorded with each label. -/
structure PosInfo where
  left : Int
  top : Int
  width : Int
  height : Int
  deriving DecidableEq, Repr

/-- A python-pptx shape as read by `extract_pdid_labels`: its name, its text
(`none` when it has no text frame), its sub-shapes (`none` when it is not a
group), and its geometry. -/
inductive PShape where
  | mk (name : List Char) (text : Option (List Char))
      (subshapes : Option (List PShape)) (position : PosInfo)

/-- The shape's `name`. -/
def PShape.name : PShape → List Char
  | mk n _ _ _ => n

/-- The shape's text, when it has a text frame. -/
def PShape.text : PShape → Option (List Char)
  | mk _ t _ _ => t

/-- The shape's sub-shapes, when it is a group. -/
def PShape.subshapes : PShape → Option (List PShape)
  | mk _ _ s _ => s

/-- The shape's geometry. -/
def PShape.position : PShape → PosInfo
  | mk _ _ _ p => p

/-- One `label_info` record of `extract_pdid_labels` (`parent_group` is
`none` for a `direct_text` entry, which carries no such key). -/
structure LabelInfo where
  name : List Char
  text : List Char
  pdid : Nat
  typ : List Char
  parent_group : Option (List Char)
  position : PosInfo
  deriving DecidableEq, Repr

/-- The `direct_text` entries a top-level shape contributes from its own
text in `extract_pdid_labels`. -/
def directEntries (shape : PShape) : List LabelInfo :=
  match shape.text with
  | none => []
  | some t =>
    let txt := pyStrip t
    if txt = [] then []
    else (matchPdidFormat txt).map (fun v =>
      { name := shape.name, text := txt, pdid := v,
        typ := ("direct_text".data), parent_group := none,
        position := shape.position })

/-- The `group_text` entries a direct child of a group contributes in
`extract_pdid_labels`; the child's own sub-shapes are never consulted. -/
def groupEntries (parent_name : List Char) (sub : PShape) : List LabelInfo :=
  match sub.text with
  | none => []
  | some t =>
    let txt := pyStrip t
    if txt = [] then []
    else (matchPdidFormat txt).map (fun v =>
      { name := sub.name, text := txt, pdid := v,
        typ := ("group_text".data), parent_group := some parent_name,
        position := sub.position })

/-- The contribution of one top-level shape in `extract_pdid_labels`: its own
text entries, then — when it is a group — the entries of its direct children. -/
def extractShapeLabels (shape : PShape) : List LabelInfo :=
  directEntries shape ++
    (match shape.subshapes with
     | none => []
     | some subs => subs.bind (groupEntries shape.name))

/-- The labels of one slide in `extract_pdid_labels`. -/
def extractSlideLabels (shapes : List PShape) : List LabelInfo :=
  shapes.bind extractShapeLabels

/-- `PDIDExtractor.extract_pdid_labels`: one label list per slide (the Python
result keys the lists by consecutive slide index). -/
def extract_pdid_labels (slides : List (List PShape)) : List (List LabelInfo) :=
  slides.map extractSlideLabels

/-- Remove a shape's own sub-shapes (used to truncate nesting below the
depth the extractor visits). -/
def truncChild (s : PShape) : PShape :=
  PShape.mk s.name s.text none s.position

/-- Truncate a top-level shape at depth two: keep its direct children but
drop everything below them. -/
def truncTop (s : PShape) : PShape :=
  PShape.mk s.name s.text (s.subshapes.map (List.map truncChild)) s.position

/-! ## image_renamer.py -/

/-- The CJK range `一-鿿` tested by `chinese_to_pinyin`. -/
def isCJKChar (c : Char) : Bool :=
  0x4e00 ≤ c.toNat && c.toNat ≤ 0x9fff

/-- ASCII letters and digits (the class `[a-zA-Z0-9]`). -/
def isAsciiAlnum (c : Char) : Bool :=
  ('0' ≤ c && c ≤ '9') || ('A' ≤ c && c ≤ 'Z') || ('a' ≤ c && c ≤ 'z')

/-- Python `str.isalnum` (the full Unicode alphanumeric property), modelled
on the ASCII and Latin-1 ranges — the only non-CJK ranges the theorems below
exercise; CJK characters are consumed by the preceding branch of the loop in
`chinese_to_pinyin` and never reach this test. Latin-1 letters are
`U+00C0`–`U+00FF` except the two operators `×` and `÷`. -/
def pyIsAlnum (c : Char) : Bool :=
  isAsciiAlnum c ||
    (0xC0 ≤ c.toNat && c.toNat ≤ 0xFF && c.toNat ≠ 0xD7 && c.toNat ≠ 0xF7)

/-- Python `str.lower` on one character, modelled on the same ranges:
ASCII and Latin-1 uppercase letters move down by 32, everything else is
unchanged. -/
def pyLowerChar (c : Char) : Char :=
  if 'A' ≤ c && c ≤ 'Z' then Char.ofNat (c.toNat + 32)
  else if 0xC0 ≤ c.toNat && c.toNat ≤ 0xDE && c.toNat ≠ 0xD7 then
    Char.ofNat (c.toNat + 32)
  else c

/-- `re.sub(r'_+', '_', ...)`: collapse every run of underscores to one
(the boolean tracks whether the previous kept character was an underscore). -/
def collapseUnderscoresAux : Bool → List Char → List Char
  | _, [] => []
  | prev, c :: t =>
    if c = '_' then
      if prev then collapseUnderscoresAux true t
      else '_' :: collapseUnderscoresAux true t
    else c :: collapseUnderscoresAux false t

/-- `re.sub(r'_+', '_', ...)`. -/
def collapseUnderscores (l : List Char) : List Char :=
  collapseUnderscoresAux false l

/-- Python `str.strip('_')`. -/
def stripUnderscores (l : List Char) : List Char :=
  ((l.dropWhile (fun c => c = '_')).reverse.dropWhile (fun c => c = '_')).reverse

/-- The first pass of `ImageRenamer.chinese_to_pinyin` up to the CJK check:
per character, CJK goes through the pypinyin table `py`; other alphanumeric
characters are lower-cased and kept; space, `-` and `_` become `_`;
everything else is dropped.  An empty join falls back to
`[^a-zA-Z0-9] → _` over the original text, lower-cased.  Runs of
underscores are then collapsed and stripped from the ends. -/
def pinyinFirstPass (py : Char → List Char) (chinese_text : List Char) :
    List Char :=
  let step := chinese_text.bind (fun c =>
    if isCJKChar c then py c
    else if pyIsAlnum c then [pyLowerChar c]
    else if c = ' ' || c = '-' || c = '_' then ['_']
    else [])
  let s1 := if step = [] then
      (chinese_text.map (fun c => if isAsciiAlnum c then c else '_')).map
        pyLowerChar
    else step
  stripUnderscores (collapseUnderscores s1)

/-- The stricter fallback pass of `chinese_to_pinyin`:
`re.sub(r'[^a-zA-Z0-9_]', '_', chinese_text)`, collapse runs of
underscores, strip them from the ends, lower-case. -/
def pinyinFallback (chinese_text : List Char) : List Char :=
  let t1 := chinese_text.map
    (fun c => if isAsciiAlnum c || c = '_' then c else '_')
  (stripUnderscores (collapseUnderscores t1)).map pyLowerChar

/-- `ImageRenamer.chinese_to_pinyin`, parameterised by the pypinyin
transliteration table `py` (the NORMAL-style reading of one CJK character):
empty input yields `device`; a first-pass result still containing a CJK
character triggers the stricter fallback pass. -/
def chinese_to_pinyin (py : Char → List Char) (chinese_text : List Char) :
    List Char :=
  if chinese_text = [] then ("device".data)
  else if (pinyinFirstPass py chinese_text).any isCJKChar then
    pinyinFallback chinese_text
  else pinyinFirstPass py chinese_text

/-- `ImageRenamer.sanitize_filename`: replace the filesystem-illegal
characters by `_`, collapse runs of underscores, strip them from the ends. -/
def sanitize_filename (filename : List Char) : List Char :=
  let s1 := filename.map (fun c =>
    if c = '<' || c = '>' || c = ':' || c = '\"' || c = '/' || c = '\\' ||
        c = '|' || c = '?' || c = '*' then '_' else c)
  stripUnderscores (collapseUnderscores s1)

/-- `ImageRenamer.generate_image_filename`:
`f"pdid{clean_pdid}_{pinyin_name}.png"`. -/
def generate_image_filename (py : Char → List Char)
    (pdid device_name : List Char) : List Char :=
  ("pdid".data) ++ sanitize_filename pdid ++
    ('_' :: chinese_to_pinyin py device_name) ++ (".png".data)

/-- The spec's "safe ASCII-plus-underscore alphabet" for filenames (ASCII
letters and digits, underscore, and the dot of the extension). -/
def safeChar (c : Char) : Bool :=
  isAsciiAlnum c || c = '_' || c = '.'

/-! ## Helper lemmas -/

/-- Whether a parsed row's image identifier has a registry match in either
form (the loop guard of `build_complete_mapping_chain`). -/
def rowMatched (cm : List (List Char × CellimagesInfo))
    (p : Nat × DispimgInfo) : Bool :=
  (matchRegistry p.2.image_id cm).isSome

/-- Whether a pdid has a catalog match under `str(pdid)` (the loop guard of
`count_devices_by_pdid`). -/
def pdidMatched (device_mapping : List (List Char × DeviceInfo))
    (p : Nat × Nat) : Bool :=
  (dictGet device_mapping (natToChars p.1)).isSome

lemma dictGet_eq_none_iff {α β : Type} [DecidableEq α] (l : List (α × β))
    (k : α) : dictGet l k = none ↔ k ∉ l.map Prod.fst := by
  induction l with
  | nil => simp [dictGet]
  | cons p t ih =>
    by_cases h : p.1 = k
    · simp [dictGet, h]
    · have h2 : ¬ k = p.1 := fun hk => h hk.symm
      simp [dictGet, h, h2, ih]

lemma dictInsert_fresh {α β : Type} [DecidableEq α] (k : α) (v : β)
    (l : List (α × β)) (h : k ∉ l.map Prod.fst) :
    dictInsert k v l = l ++ [(k, v)] := by
  unfold dictInsert
  rw [(dictGet_eq_none_iff l k).mpr h]
  simp

lemma buildChainStep_unmatched (cm : List (List Char × CellimagesInfo))
    (acc : List (List Char × MappingEntry)) (p : Nat × DispimgInfo)
    (h : rowMatched cm p = false) : buildChainStep cm acc p = acc := by
  unfold buildChainStep
  unfold rowMatched at h
  cases hm : matchRegistry p.2.image_id cm with
  | none => rfl
  | some mc => rw [hm] at h; simp at h

lemma build_foldl_filter (cm : List (List Char × CellimagesInfo)) :
    ∀ (dm : List (Nat × DispimgInfo)) (acc : List (List Char × MappingEntry)),
      dm.foldl (buildChainStep cm) acc
        = (dm.filter (rowMatched cm)).foldl (buildChainStep cm) acc := by
  intro dm
  induction dm with
  | nil => intro acc; rfl
  | cons p t ih =>
    intro acc
    by_cases h : rowMatched cm p
    · simp [List.filter_cons, h, List.foldl_cons, ih]
    · simp only [Bool.not_eq_true] at h
      simp [List.filter_cons, h, List.foldl_cons,
        buildChainStep_unmatched cm acc p h, ih]

lemma build_foldl_rows (cm : List (List Char × CellimagesInfo)) :
    ∀ (dm : List (Nat × DispimgInfo)) (acc : List (List Char × MappingEntry)),
      ((dm.filter (rowMatched cm)).map (fun p => mappingKey p.1 p.2)).Nodup →
      (∀ p ∈ dm, rowMatched cm p = true →
        mappingKey p.1 p.2 ∉ acc.map Prod.fst) →
      (dm.foldl (buildChainStep cm) acc).map (fun q => q.2.row_number)
        = acc.map (fun q => q.2.row_number)
          ++ (dm.filter (rowMatched cm)).map Prod.fst := by
  intro dm
  induction dm with
  | nil => intro acc _ _; simp
  | cons p t ih =>
    intro acc hnodup hacc
    by_cases h : rowMatched cm p
    · have hfilter : (p :: t).filter (rowMatched cm)
          = p :: t.filter (rowMatched cm) := by
        simp [List.filter_cons, h]
      rw [hfilter] at hnodup ⊢
      rw [List.map_cons, List.nodup_cons] at hnodup
      obtain ⟨mc, hmc⟩ : ∃ mc, matchRegistry p.2.image_id cm = some mc := by
        unfold rowMatched at h
        exact Option.isSome_iff_exists.mp h
      have hkey : mappingKey p.1 p.2 ∉ acc.map Prod.fst :=
        hacc p (List.mem_cons_self p t) h
      have hstep : buildChainStep cm acc p
          = acc ++ [(mappingKey p.1 p.2, mkMappingEntry p.1 p.2 mc.1 mc.2)] := by
        unfold buildChainStep
        rw [hmc]
        exact dictInsert_fresh _ _ _ hkey
      rw [List.foldl_cons, hstep]
      rw [ih (acc ++ [(mappingKey p.1 p.2, mkMappingEntry p.1 p.2 mc.1 mc.2)])
        hnodup.2 ?_]
      · simp [mkMappingEntry]
      · intro q hq hqm
        have hq1 := hacc q (List.mem_cons_of_mem p hq) hqm
        have hq2 : mappingKey q.1 q.2 ≠ mappingKey p.1 p.2 := by
          intro hcontra
          apply hnodup.1
          rw [← hcontra]
          exact List.mem_map_of_mem _ (List.mem_filter.mpr ⟨hq, hqm⟩)
        simp [hq1, hq2]
    · simp only [Bool.not_eq_true] at h
      have hfilter : (p :: t).filter (rowMatched cm)
          = t.filter (rowMatched cm) := by
        simp [List.filter_cons, h]
      rw [hfilter] at hnodup ⊢
      rw [List.foldl_cons, buildChainStep_unmatched cm acc p h]
      exact ih acc hnodup (fun q hq hqm => hacc q (List.mem_cons_of_mem p hq) hqm)

lemma countP_classify_partition (m : List (List Char × MappingEntry)) :
    m.countP (fun p => p.2.pdid ≠ [] ∧ p.2.actual_file ≠ [])
      + m.countP (fun p => p.2.pdid = [])
      + m.countP (fun p => p.2.pdid ≠ [] ∧ p.2.actual_file = [])
      = m.length := by
  induction m with
  | nil => rfl
  | cons p t ih =>
    by_cases h1 : p.2.pdid = [] <;> by_cases h2 : p.2.actual_file = [] <;>
      simp [List.countP_cons, h1, h2] at ih ⊢ <;> omega

lemma countDevicesStep_unmatched (dm : List (List Char × DeviceInfo))
    (s : StatsState) (p : Nat × Nat) (h : pdidMatched dm p = false) :
    countDevicesStep dm s p = s := by
  unfold countDevicesStep
  unfold pdidMatched at h
  cases hm : dictGet dm (natToChars p.1) with
  | none => rfl
  | some di => rw [hm] at h; simp at h

lemma countDevices_foldl_filter (dm : List (List Char × DeviceInfo)) :
    ∀ (pc : List (Nat × Nat)) (s : StatsState),
      pc.foldl (countDevicesStep dm) s
        = (pc.filter (pdidMatched dm)).foldl (countDevicesStep dm) s := by
  intro pc
  induction pc with
  | nil => intro s; rfl
  | cons p t ih =>
    intro s
    by_cases h : pdidMatched dm p
    · simp [List.filter_cons, h, ih]
    · simp only [Bool.not_eq_true] at h
      simp [List.filter_cons, h, countDevicesStep_unmatched dm s p h, ih]

lemma countDevicesStep_total (dm : List (List Char × DeviceInfo))
    (s : StatsState) (p : Nat × Nat) :
    (countDevicesStep dm s p).total_devices
      = s.total_devices + (if pdidMatched dm p then p.2 else 0) := by
  unfold countDevicesStep pdidMatched
  cases hm : dictGet dm (natToChars p.1) with
  | none => simp [hm]
  | some di => simp [hm]

lemma countDevices_foldl_total (dm : List (List Char × DeviceInfo)) :
    ∀ (pc : List (Nat × Nat)) (s : StatsState),
      (pc.foldl (countDevicesStep dm) s).total_devices
        = s.total_devices + ((pc.filter (pdidMatched dm)).map Prod.snd).sum := by
  intro pc
  induction pc with
  | nil => intro s; simp
  | cons p t ih =>
    intro s
    by_cases h : pdidMatched dm p
    · simp [List.filter_cons, h, ih, countDevicesStep_total]
      omega
    · simp only [Bool.not_eq_true] at h
      simp [List.filter_cons, h, ih, countDevicesStep_total]

lemma sum_filter_not_filter {α : Type} (q : α → Bool) (f : α → Nat) :
    ∀ l : List α,
      ((l.filter q).map f).sum + ((l.filter (fun x => !(q x))).map f).sum
        = (l.map f).sum := by
  intro l
  induction l with
  | nil => rfl
  | cons a t ih =>
    by_cases h : q a <;> simp [List.filter_cons, h] <;> omega

lemma char_toNat_ofNat_lt (m : Nat) (h : m < 0x4e00) :
    (Char.ofNat m).toNat < 0x4e00 := by
  unfold Char.ofNat
  split
  · simpa [Char.ofNatAux, Char.toNat, UInt32.toNat] using h
  · simp [Char.toNat, UInt32.toNat]

lemma isCJKChar_eq_false_of_lt {c : Char} (h : c.toNat < 0x4e00) :
    isCJKChar c = false := by
  simp [isCJKChar, Nat.not_le.mpr h]

lemma isAsciiAlnum_toNat_le {c : Char} (h : isAsciiAlnum c = true) :
    c.toNat ≤ 122 := by
  unfold isAsciiAlnum at h
  simp only [Bool.or_eq_true, Bool.and_eq_true, decide_eq_true_eq] at h
  unfold Char.toNat UInt32.toNat
  rcases h with (⟨h1, h2⟩ | ⟨h1, h2⟩) | ⟨h1, h2⟩ <;>
    · simp only [Char.le_def, UInt32.le_def, BitVec.le_def] at h2
      exact le_trans h2 (by decide)

lemma pyLowerChar_not_cjk {c : Char} (h : isCJKChar c = false) :
    isCJKChar (pyLowerChar c) = false := by
  unfold pyLowerChar
  split
  · next hcond =>
    simp only [Bool.and_eq_true, decide_eq_true_eq] at hcond
    have h2 : c.toNat ≤ 90 := by
      unfold Char.toNat UInt32.toNat
      have h3 := hcond.2
      simp only [Char.le_def, UInt32.le_def, BitVec.le_def] at h3
      exact le_trans h3 (by decide)
    exact isCJKChar_eq_false_of_lt (char_toNat_ofNat_lt _ (by omega))
  · split
    · next hcond =>
      simp only [Bool.and_eq_true, decide_eq_true_eq] at hcond
      have h2 : c.toNat ≤ 0xDE := hcond.1.2
      exact isCJKChar_eq_false_of_lt (char_toNat_ofNat_lt _ (by omega))
    · exact h

lemma mem_collapseUnderscoresAux :
    ∀ (b : Bool) (l : List Char) (c : Char),
      c ∈ collapseUnderscoresAux b l → c ∈ l := by
  intro b l
  induction l generalizing b with
  | nil => intro c h; simp [collapseUnderscoresAux] at h
  | cons a t ih =>
    intro c h
    unfold collapseUnderscoresAux at h
    by_cases ha : a = '_'
    · rw [if_pos ha] at h
      cases b with
      | true =>
        simp only [if_pos rfl] at h
        exact List.mem_cons_of_mem a (ih true c h)
      | false =>
        simp only [Bool.false_eq_true, if_neg] at h
        rcases List.mem_cons.mp h with h1 | h1
        · subst ha; simp [h1]
        · exact List.mem_cons_of_mem a (ih true c h1)
    · rw [if_neg ha] at h
      rcases List.mem_cons.mp h with h1 | h1
      · simp [h1]
      · exact List.mem_cons_of_mem a (ih false c h1)

lemma mem_collapseUnderscores {l : List Char} {c : Char}
    (h : c ∈ collapseUnderscores l) : c ∈ l :=
  mem_collapseUnderscoresAux false l c h

lemma mem_stripUnderscores {l : List Char} {c : Char}
    (h : c ∈ stripUnderscores l) : c ∈ l := by
  unfold stripUnderscores at h
  rw [List.mem_reverse] at h
  have h1 := (List.dropWhile_sublist _).subset h
  rw [List.mem_reverse] at h1
  exact (List.dropWhile_sublist _).subset h1

lemma chinese_to_pinyin_no_cjk (py : Char → List Char) (text : List Char) :
    ∀ c ∈ chinese_to_pinyin py text, isCJKChar c = false := by
  intro c hc
  unfold chinese_to_pinyin at hc
  by_cases h0 : text = []
  · rw [if_pos h0] at hc
    have hall : ∀ x ∈ (("device".data) : List Char), isCJKChar x = false := by
      decide
    exact hall c hc
  · rw [if_neg h0] at hc
    by_cases hany : (pinyinFirstPass py text).any isCJKChar
    · rw [if_pos hany] at hc
      unfold pinyinFallback at hc
      rcases List.mem_map.mp hc with ⟨d, hd, hdc⟩
      have hd1 := mem_collapseUnderscores (mem_stripUnderscores hd)
      rcases List.mem_map.mp hd1 with ⟨x, _, hxd⟩
      have hdfalse : isCJKChar d = false := by
        by_cases hx : isAsciiAlnum x || x = '_'
        · rw [if_pos hx] at hxd
          have hx2 : isAsciiAlnum x = true ∨ x = '_' := by simpa using hx
          rcases hx2 with hx1 | hx1
          · exact hxd ▸ isCJKChar_eq_false_of_lt
              (Nat.lt_of_le_of_lt (isAsciiAlnum_toNat_le hx1) (by omega))
          · rw [← hxd, hx1]; decide
        · rw [if_neg hx] at hxd; rw [← hxd]; decide
      exact hdc ▸ pyLowerChar_not_cjk hdfalse
    · rw [if_neg hany] at hc
      simp only [Bool.not_eq_true] at hany
      have h1 := List.any_eq_false.mp hany c hc
      simpa using h1

lemma groupEntries_truncChild (parent : List Char) (c : PShape) :
    groupEntries parent (truncChild c) = groupEntries parent c := rfl

lemma directEntries_truncTop (s : PShape) :
    directEntries (truncTop s) = directEntries s := rfl

lemma truncTop_name (s : PShape) : (truncTop s).name = s.name := rfl

lemma bind_map_groupEntries (n : List Char) :
    ∀ subs : List PShape,
      (subs.map truncChild).bind (groupEntries n)
        = subs.bind (groupEntries n) := by
  intro subs
  induction subs with
  | nil => rfl
  | cons a t ih => simp [groupEntries_truncChild, ih]

lemma extractShapeLabels_truncTop (s : PShape) :
    extractShapeLabels (truncTop s) = extractShapeLabels s := by
  unfold extractShapeLabels
  rw [directEntries_truncTop, truncTop_name]
  have hsub : (truncTop s).subshapes
      = s.subshapes.map (List.map truncChild) := rfl
  rw [hsub]
  cases hs : s.subshapes with
  | none => rfl
  | some subs => simp [bind_map_groupEntries]

lemma extractSlideLabels_truncTop (shapes : List PShape) :
    extractSlideLabels (shapes.map truncTop) = extractSlideLabels shapes := by
  unfold extractSlideLabels
  induction shapes with
  | nil => rfl
  | cons a t ih => simp [extractShapeLabels_truncTop, ih]

lemma matchPdidFormat_length_le_one (t : List Char) :
    (matchPdidFormat t).length ≤ 1 := by
  unfold matchPdidFormat
  cases searchStrict t with
  | some v => simp
  | none =>
    cases searchLoose t with
    | some v => simp
    | none => simp

lemma roundTo2_third : roundTo2 ((1 : ℚ) / 3 * 100) = 3333 / 100 := by
  have h1 : ((1 : ℚ) / 3 * 100 * 100) = 10000 / 3 := by norm_num
  unfold roundTo2 roundHalfEven
  rw [h1]
  have hf : Rat.floor ((10000 : ℚ) / 3) = 3333 := by
    have h2 : Rat.floor ((10000 : ℚ) / 3) = ⌊((10000 : ℚ) / 3)⌋ := rfl
    rw [h2, show ((10000 : ℚ) / 3) = ((10000 : ℤ) : ℚ) / ((3 : ℕ) : ℚ) by
      norm_num]
    rw [Rat.floor_intCast_div_natCast]
    decide
  rw [hf]
  norm_num

/-! ## Concrete inputs used by counterexamples and witnesses -/

/-- A registry record with an existing media file. -/
def ciSample : CellimagesInfo :=
  { r_id := ("rId1".data), actual_file := ("image1.png".data),
    file_path := [], description := [] }

/-- A second registry record, distinguishable from `ciSample`. -/
def ciSample2 : CellimagesInfo :=
  { r_id := ("rId2".data), actual_file := ("image2.png".data),
    file_path := [], description := [] }

/-- A parsed row (row 2, pdid 1) whose formula yielded identifier `X`. -/
def rowX : Nat × DispimgInfo :=
  (2, { pdid := ("1".data), device_name := [], dispimg_formula := [],
        image_id := ("X".data) })

/-- A parsed row (row 2, pdid 1) whose formula yielded the already prefixed
identifier `ID_ABC123`. -/
def rowPrefixed : Nat × DispimgInfo :=
  (2, { pdid := ("1".data), device_name := [], dispimg_formula := [],
        image_id := ("ID_ABC123".data) })

/-- A three-entry mapping: one complete entry, one with an empty pdid, one
with no media file. -/
def m3ex : List (List Char × MappingEntry) :=
  [(("a".data), mkMappingEntry 2
      { pdid := ("1".data), device_name := [], dispimg_formula := [],
        image_id := ("X".data) }
      ("X".data)
      { r_id := ("r1".data), actual_file := ("a.png".data),
        file_path := [], description := [] }),
   (("b".data), mkMappingEntry 3
      { pdid := [], device_name := [], dispimg_formula := [],
        image_id := ("Y".data) }
      ("Y".data)
      { r_id := ("r2".data), actual_file := ("b.png".data),
        file_path := [], description := [] }),
   (("c".data), mkMappingEntry 4
      { pdid := ("2".data), device_name := [], dispimg_formula := [],
        image_id := ("Z".data) }
      ("Z".data)
      { r_id := ("r3".data), actual_file := [], file_path := [],
        description := [] })]

/-- A one-entry mapping whose stored `validation_status` (`incomplete`)
differs from its classification (`missing_image`). -/
def m1ex : List (List Char × MappingEntry) :=
  [(("k".data), mkMappingEntry 2
      { pdid := ("1".data), device_name := [], dispimg_formula := [],
        image_id := ("X".data) }
      ("X".data)
      { r_id := ("r".data), actual_file := [], file_path := [],
        description := [] })]

/-- A one-entry mapping whose entry has neither a pdid nor a media file. -/
def m0ex : List (List Char × MappingEntry) :=
  [(("k".data), mkMappingEntry 2
      { pdid := [], device_name := [], dispimg_formula := [],
        image_id := ("X".data) }
      ("X".data)
      { r_id := ("r".data), actual_file := [], file_path := [],
        description := [] })]

/-- A catalog with exactly one device, stored under the string key `1`. -/
def dmDev : List (List Char × DeviceInfo) :=
  [(("1".data),
    { brand := ("br".data), device_name := ("开关".data),
      specification := [] })]

/-- A slide whose only shape is a group containing a sub-group containing a
text shape labelled `pdid: 7` (nesting depth two). -/
def deepSlide : List PShape :=
  [PShape.mk ("outer".data) none
    (some [PShape.mk ("inner".data) none
      (some [PShape.mk ("lbl".data) (some ("pdid: 7".data)) none
        ⟨0, 0, 0, 0⟩]) ⟨0, 0, 0, 0⟩]) ⟨0, 0, 0, 0⟩]

/-! ## Claims -/

/-- C1, counterexample: a parsed row (row 2) whose identifier `X` has no
registry match produces no output entry at all — in particular no entry with
row number 2 and no `missing_image` entry: the resolver's output is empty. -/
theorem build_chain_unmatched_dropped_cex :
    build_complete_mapping_chain [rowX] [] = []
      ∧ ¬ ∃ p ∈ build_complete_mapping_chain [rowX] [], p.2.row_number = 2 := by
  decide

/-- C1 (amended): rows whose identifier has no registry match in either form
are dropped from the output of `build_complete_mapping_chain` (the output
equals the output on the matched rows alone), and — provided the mapping
keys of the matched rows are pairwise distinct — the output contains exactly
one entry per matched row, carrying that row's number, in input order. -/
theorem build_chain_row_coverage (dm : List (Nat × DispimgInfo))
    (cm : List (List Char × CellimagesInfo))
    (hkeys : ((dm.filter (rowMatched cm)).map
      (fun p => mappingKey p.1 p.2)).Nodup) :
    build_complete_mapping_chain dm cm
        = build_complete_mapping_chain (dm.filter (rowMatched cm)) cm
      ∧ (build_complete_mapping_chain dm cm).map (fun q => q.2.row_number)
        = (dm.filter (rowMatched cm)).map Prod.fst := by
  constructor
  · exact build_foldl_filter cm dm []
  · have h := build_foldl_rows cm dm [] hkeys (by intro q hq hqm; simp)
    simpa using h

/-- C1, witness: with one matched row (row 2, identifier `X` present in the
registry) the output's row numbers are exactly `[2]`. -/
theorem build_chain_row_coverage_witness :
    (build_complete_mapping_chain [rowX] [(("X".data), ciSample)]).map
      (fun q => q.2.row_number) = [2] :=
  ((build_chain_row_coverage [rowX] [(("X".data), ciSample)]
    (by decide)).2).trans (by decide)

/-- C2, counterexample: when the formula yields `ID_ABC123` and the registry
stores the image only under `ABC123` (no prefix), the resolver finds no
match — it never strips an existing prefix, it only adds one — and the row
is dropped. -/
theorem registry_match_no_prefix_strip_cex :
    matchRegistry ("ID_ABC123".data) [(("ABC123".data), ciSample)] = none
      ∧ build_complete_mapping_chain [rowPrefixed]
          [(("ABC123".data), ciSample)] = [] := by
  decide

/-- C2 (amended): the resolver tries the parsed identifier verbatim first and
the `ID_`-prefix-added variant second; a verbatim hit wins even when the
prefixed key is also present, and when the verbatim lookup fails the result
is exactly the lookup of the prefixed key.  The prefix is only ever added,
never stripped. -/
theorem registry_match_policy (cm : List (List Char × CellimagesInfo))
    (id : List Char) :
    (∀ ci, dictGet cm id = some ci → matchRegistry id cm = some (id, ci))
      ∧ (dictGet cm id = none →
          matchRegistry id cm
            = (dictGet cm (("ID_".data) ++ id)).map
                (fun ci => ((("ID_".data) ++ id), ci))) := by
  constructor
  · intro ci hci
    unfold matchRegistry
    rw [hci]
  · intro hnone
    unfold matchRegistry
    rw [hnone]
    cases h2 : dictGet cm (("ID_".data) ++ id) <;> simp [h2]

/-- C2, witness: a verbatim hit wins over a coexisting prefixed key, and an
unprefixed identifier is matched through the prefixed registry key. -/
theorem registry_match_policy_witness :
    matchRegistry ("X".data) [(("X".data), ciSample), (("ID_X".data), ciSample2)]
        = some (("X".data), ciSample)
      ∧ matchRegistry ("ABC123".data) [(("ID_ABC123".data), ciSample)]
        = some (("ID_ABC123".data), ciSample) :=
  ⟨(registry_match_policy [(("X".data), ciSample), (("ID_X".data), ciSample2)]
      ("X".data)).1 ciSample (by decide),
   ((registry_match_policy [(("ID_ABC123".data), ciSample)]
      ("ABC123".data)).2 (by decide)).trans (by decide)⟩

/-- C3, counterexample: on a deck whose only slide holds a group containing a
sub-group containing a text shape `pdid: 7`, the extractor returns no
entries at all (the label at nesting depth two is never visited). -/
theorem extractor_nested_group_cex :
    extract_pdid_labels [deepSlide] = [[]] := by
  decide

/-- C3 (amended): the extractor visits each slide's top-level shapes and the
direct children of top-level groups only — truncating every shape tree below
depth two never changes the result — and a labelled text shape that is a
direct child of a top-level group yields exactly one entry carrying one
level of parent context (the group's name). -/
theorem extractor_depth_two (slides : List (List PShape))
    (gname cname t : List Char) (gpos cpos : PosInfo) (v : Nat)
    (hv : matchPdidFormat (pyStrip t) = [v]) :
    extract_pdid_labels (slides.map (List.map truncTop))
        = extract_pdid_labels slides
      ∧ extractSlideLabels
          [PShape.mk gname none
            (some [PShape.mk cname (some t) none cpos]) gpos]
        = [{ name := cname, text := pyStrip t, pdid := v,
             typ := ("group_text".data), parent_group := some gname,
             position := cpos }] := by
  constructor
  · unfold extract_pdid_labels
    rw [List.map_map]
    apply List.map_congr_left
    intro slide _
    exact extractSlideLabels_truncTop slide
  · by_cases htxt : pyStrip t = []
    · rw [htxt] at hv
      exact absurd hv.symm (List.cons_ne_nil v [])
    · simp [extractSlideLabels, extractShapeLabels, directEntries,
        groupEntries, PShape.text, PShape.subshapes, PShape.name,
        PShape.position, htxt, hv]

/-- C3, witness: the depth-two truncation of the deeply nested deck is
extracted identically, and a label one level deep inside the group `outer`
yields one entry with `parent_group = outer`. -/
theorem extractor_depth_two_witness :
    extract_pdid_labels ([deepSlide].map (List.map truncTop))
        = extract_pdid_labels [deepSlide]
      ∧ extractSlideLabels
          [PShape.mk ("outer".data) none
            (some [PShape.mk ("lbl".data) (some ("pdid: 7".data)) none
              ⟨1, 2, 3, 4⟩]) ⟨0, 0, 0, 0⟩]
        = [{ name := ("lbl".data), text := pyStrip ("pdid: 7".data), pdid := 7,
             typ := ("group_text".data), parent_group := some ("outer".data),
             position := ⟨1, 2, 3, 4⟩ }] :=
  extractor_depth_two [deepSlide] ("outer".data) ("lbl".data)
    ("pdid: 7".data) ⟨0, 0, 0, 0⟩ ⟨1, 2, 3, 4⟩ 7 (by decide)

/-- C4, counterexample: on a mapping with one complete entry out of three,
the reported completeness rate is the two-decimal rounding `33.33`, which is
not exactly `1 / 3 * 100`. -/
theorem validator_rate_rounded_cex :
    (validate_mapping_chain m3ex).2.complete_mappings = 1
      ∧ (validate_mapping_chain m3ex).2.total_mappings = 3
      ∧ (validate_mapping_chain m3ex).2.completeness_rate
          ≠ (1 : ℚ) / 3 * 100 := by
  refine ⟨by decide, by decide, ?_⟩
  have hrate : (validate_mapping_chain m3ex).2.completeness_rate
      = roundTo2 (((1 : Nat) : ℚ) / ((3 : Nat) : ℚ) * 100) := rfl
  rw [hrate]
  have hc : (((1 : Nat) : ℚ) / ((3 : Nat) : ℚ) * 100) = (1 : ℚ) / 3 * 100 := by
    norm_num
  rw [hc, roundTo2_third]
  norm_num

/-- C4 (amended): the three status counters of `validate_mapping_chain`
partition the entries — `complete + missing_pdid + missing_images` equals
`total_mappings` — and the completeness rate is
`complete / total * 100` rounded to two decimal places (`0` when the mapping
is empty), not the exact quotient. -/
theorem validator_completeness_arithmetic
    (m : List (List Char × MappingEntry)) :
    (validate_mapping_chain m).2.complete_mappings
        + (validate_mapping_chain m).2.missing_pdid
        + (validate_mapping_chain m).2.missing_images
      = (validate_mapping_chain m).2.total_mappings
      ∧ (validate_mapping_chain m).2.completeness_rate
        = (if 0 < m.length then
            roundTo2 (((validate_mapping_chain m).2.complete_mappings : ℚ)
              / (m.length : ℚ) * 100)
          else 0) :=
  ⟨countP_classify_partition m, rfl⟩

/-- C5, counterexample: with two labels of pdid 1 and three labels of the
uncatalogued pdid 99, the aggregation result is identical to the one
computed without the unmatched labels — nothing in the result surfaces
them — and the priced total counts only the two matched labels of the five
found. -/
theorem aggregator_unmatched_dropped_cex :
    count_devices_by_pdid [(1, 2), (99, 3)] dmDev
        = count_devices_by_pdid [(1, 2)] dmDev
      ∧ (count_devices_by_pdid [(1, 2), (99, 3)] dmDev).total_devices = 2 := by
  decide

/-- C5 (amended): unmatched pdids leave every part of the aggregation result
unchanged (the result equals the result on the matched labels alone), and
the conservation law holds with the unmatched count derived from the inputs:
`total_devices` plus the label count of the unmatched pdids equals the total
number of labels found.  No unmatched count appears in the result itself. -/
theorem aggregator_conservation (pc : List (Nat × Nat))
    (dm : List (List Char × DeviceInfo)) :
    count_devices_by_pdid pc dm
        = count_devices_by_pdid (pc.filter (pdidMatched dm)) dm
      ∧ (count_devices_by_pdid pc dm).total_devices
          + ((pc.filter (fun p => !(pdidMatched dm p))).map Prod.snd).sum
        = (pc.map Prod.snd).sum := by
  constructor
  · unfold count_devices_by_pdid
    rw [countDevices_foldl_filter]
  · have h1 : (count_devices_by_pdid pc dm).total_devices
        = ((pc.filter (pdidMatched dm)).map Prod.snd).sum := by
      unfold count_devices_by_pdid
      simp [countDevices_foldl_total]
    rw [h1]
    exact sum_filter_not_filter (pdidMatched dm) Prod.snd pc

/-- C6, counterexample: for pdid `PD001` and device name `é` the generated
filename is `pdidPD001_é.png` — it starts with the literal `pdid` rather
than the product identifier, carries a fixed `.png` extension, and contains
`é`, a character outside the safe ASCII-plus-underscore alphabet that no
fallback pass removes (the fallback only fires on residual CJK characters). -/
theorem renamer_unsafe_char_cex :
    generate_image_filename (fun _ => []) ("PD001".data) ("é".data)
        = ("pdidPD001_é.png".data)
      ∧ 'é' ∈ generate_image_filename (fun _ => []) ("PD001".data) ("é".data)
      ∧ safeChar 'é' = false := by
  decide

/-- C6 (amended): the materialized filename follows the rule
`pdid<sanitized-identifier>_<transliterated-name>.png` — a literal `pdid`
prefix and a fixed `.png` extension, not the original extension — and the
transliteration (a pure function of the pypinyin table and the name, hence
deterministic) guarantees only that no CJK character survives; non-ASCII
alphanumeric characters outside the CJK range may remain. -/
theorem renamer_filename_rule (py : Char → List Char)
    (pdid device_name : List Char) :
    generate_image_filename py pdid device_name
        = ("pdid".data) ++ sanitize_filename pdid
          ++ ('_' :: chinese_to_pinyin py device_name) ++ (".png".data)
      ∧ ∀ c ∈ chinese_to_pinyin py device_name, isCJKChar c = false :=
  ⟨rfl, chinese_to_pinyin_no_cjk py device_name⟩

/-- C6, witness: at the name `x1` the filename equation holds and the
transliterated character `x` is not CJK. -/
theorem renamer_filename_rule_witness :
    generate_image_filename (fun _ => []) ("PD001".data) ("x1".data)
        = ("pdid".data) ++ sanitize_filename ("PD001".data)
          ++ ('_' :: chinese_to_pinyin (fun _ => []) ("x1".data))
          ++ (".png".data)
      ∧ isCJKChar 'x' = false :=
  ⟨(renamer_filename_rule (fun _ => []) ("PD001".data) ("x1".data)).1,
   (renamer_filename_rule (fun _ => []) ("PD001".data) ("x1".data)).2 'x'
     (by decide)⟩

/-- C7: a shape contributes at most one label entry, whether visited directly
or as a group child, because `_match_pdid_format` returns at most one value:
a strict-pattern hit short-circuits everything (the result is exactly that
hit), and the loose pattern is consulted only when the strict search fails. -/
theorem shape_label_at_most_once (text : List Char) (shape : PShape)
    (parent : List Char) :
    (directEntries shape).length ≤ 1
      ∧ (groupEntries parent shape).length ≤ 1
      ∧ (∀ v, searchStrict text = some v → matchPdidFormat text = [v])
      ∧ (searchStrict text = none → ∀ v, searchLoose text = some v →
          matchPdidFormat text = [v]) := by
  refine ⟨?_, ?_, ?_, ?_⟩
  · unfold directEntries
    cases shape.text with
    | none => simp
    | some t =>
      by_cases h : pyStrip t = [] <;> simp [h, matchPdidFormat_length_le_one]
  · unfold groupEntries
    cases shape.text with
    | none => simp
    | some t =>
      by_cases h : pyStrip t = [] <;> simp [h, matchPdidFormat_length_le_one]
  · intro v hv
    unfold matchPdidFormat
    rw [hv]
  · intro hs v hv
    unfold matchPdidFormat
    rw [hs, hv]

/-- C7, witness: the text `pdid: 5` — matched by the strict pattern, and by
the loose pattern too if it were consulted — yields the single value 5, and
a shape carrying it contributes at most one entry. -/
theorem shape_label_at_most_once_witness :
    (directEntries (PShape.mk ("s1".data) (some ("pdid: 5".data)) none
      ⟨0, 0, 0, 0⟩)).length ≤ 1
      ∧ matchPdidFormat ("pdid: 5".data) = [5] :=
  ⟨(shape_label_at_most_once ("pdid: 5".data)
      (PShape.mk ("s1".data) (some ("pdid: 5".data)) none ⟨0, 0, 0, 0⟩)
      []).1,
   (shape_label_at_most_once ("pdid: 5".data)
      (PShape.mk ("s1".data) (some ("pdid: 5".data)) none ⟨0, 0, 0, 0⟩)
      []).2.2.1 5 (by decide)⟩

/-- C8: the category derivation of `_extract_device_category` coincides, for
every display name, with the spec's ordered first-substring-match over the
keyword list switch (开关), socket (插座), sensor (传感器), gateway (网关),
panel (面板), with the catch-all other (其他设备) — so a name containing an
earlier and a later keyword is classified by the earlier one. -/
theorem category_first_keyword_match (device_name : List Char) :
    extract_device_category device_name = firstMatchCategory device_name := by
  unfold extract_device_category firstMatchCategory categoryKeywordTable
  by_cases h1 : isSub ("开关".data) device_name <;>
    by_cases h2 : isSub ("插座".data) device_name <;>
      by_cases h3 : isSub ("传感器".data) device_name <;>
        by_cases h4 : isSub ("网关".data) device_name <;>
          by_cases h5 : isSub ("面板".data) device_name <;>
            simp [h1, h2, h3, h4, h5, List.find?]

/-- C9, counterexample: the validator is not free of side effects on its
input — on a mapping whose entry carries the stored status `incomplete`, the
mapping after the call differs from the mapping before it (the entry's
status has been rewritten to `missing_image`). -/
theorem validator_mutates_status_cex :
    (validate_mapping_chain m1ex).1 ≠ m1ex := by
  decide

/-- C9 (amended): `validate_mapping_chain` rewrites each entry's
`validation_status` in place (a side effect on its input), but it is
idempotent: re-running it on the mapping it produced yields the identical
mapping and the identical summary. -/
theorem validator_idempotent (m : List (List Char × MappingEntry)) :
    validate_mapping_chain ((validate_mapping_chain m).1)
      = validate_mapping_chain m := by
  unfold validate_mapping_chain
  simp only [List.map_map, List.countP_map, List.length_map]
  rfl

/-- C10: every entry of the validated mapping carries exactly the status
determined by the precedence empty-pdid check, then empty-media-file check,
then `complete` — in particular an entry with both an empty pdid and a
missing file is `missing_pdid`. -/
theorem validator_status_precedence (m : List (List Char × MappingEntry))
    (k : List Char) (e : MappingEntry)
    (h : (k, e) ∈ (validate_mapping_chain m).1) :
    (e.pdid = [] → e.validation_status = ("missing_pdid".data))
      ∧ (e.pdid ≠ [] → e.actual_file = [] →
          e.validation_status = ("missing_image".data))
      ∧ (e.pdid ≠ [] → e.actual_file ≠ [] →
          e.validation_status = ("complete".data)) := by
  unfold validate_mapping_chain at h
  rcases List.mem_map.mp h with ⟨p, hp, hpe⟩
  have he : e = { p.2 with validation_status := classifyStatus p.2 } :=
    ((Prod.mk.injEq _ _ _ _).mp hpe).2.symm
  subst he
  refine ⟨?_, ?_, ?_⟩
  · intro h1
    show classifyStatus p.2 = _
    unfold classifyStatus
    rw [if_pos h1]
  · intro h1 h2
    show classifyStatus p.2 = _
    unfold classifyStatus
    rw [if_neg h1, if_pos h2]
  · intro h1 h2
    show classifyStatus p.2 = _
    unfold classifyStatus
    rw [if_neg h1, if_neg h2]

/-- C10, witness: the entry of `m0ex` — empty pdid and missing media file —
is validated as `missing_pdid`: the pdid check takes precedence. -/
theorem validator_status_precedence_witness :
    ({ mkMappingEntry 2
        { pdid := [], device_name := [], dispimg_formula := [],
          image_id := ("X".data) }
        ("X".data)
        { r_id := ("r".data), actual_file := [], file_path := [],
          description := [] }
       with validation_status := ("missing_pdid".data) }
      : MappingEntry).validation_status = ("missing_pdid".data) :=
  (validator_status_precedence m0ex ("k".data)
    { mkMappingEntry 2
        { pdid := [], device_name := [], dispimg_formula := [],
          image_id := ("X".data) }
        ("X".data)
        { r_id := ("r".data), actual_file := [], file_path := [],
          description := [] }
      with validation_status := ("missing_pdid".data) }
    (by decide)).1 (by decide)
